import Mathlib

/-!
Shallow embedding of `dnscrypt-proxy/config.go` (configuration loading).

The Go file defines `Config`, `ServerConfig`, `SourceConfig`, the defaults
constructor `newConfig`, the entry point `ConfigLoad(proxy, config_file)`,
and the helper `includesName`.  External collaborators (the TOML decoder,
the `NewSource` constructor together with `Source.Parse`, and
`NewServerStampFromLegacy`) are modelled as oracle functions bundled in an
`Env` record; Go maps are modelled as association lists in iteration order;
`dlog.Fatal` (process abort) is modelled as a distinct error constructor
`LoadErr.fatal`, while an ordinary `return err` is `LoadErr.err`.
-/

set_option autoImplicit false

namespace DnscryptConfig

/-- An opaque connection stamp, as produced by the stamp collaborator
(`ServerStamp` in the Go sources; its internals are out of scope). -/
structure ServerStamp where
  data : String := ""
deriving DecidableEq, Repr, Inhabited

/-- Record RegisteredServer with name and stamp, from the Go sources. -/
structure RegisteredServer where
  name : String
  stamp : ServerStamp
deriving DecidableEq, Repr, Inhabited

/-- Struct ServerConfig from config.go (one servers table entry). -/
structure ServerConfig where
  Stamp : String := ""
  ProviderName : String := ""
  Address : String := ""
  PublicKey : String := ""
  NoLog : Bool := false
  DNSSEC : Bool := false
deriving DecidableEq, Repr, Inhabited

/-- Struct SourceConfig from config.go (one sources table entry).
`RefreshDelay` is the raw integer number of hours from the file. -/
structure SourceConfig where
  URL : String := ""
  MinisignKeyStr : String := ""
  CacheFile : String := ""
  FormatStr : String := ""
  RefreshDelay : Int := 0
deriving DecidableEq, Repr, Inhabited

/-- Struct Config from config.go.  The Go maps `ServersConfig` and
`SourcesConfig` are modelled as association lists whose order is the
(unspecified) Go map iteration order. -/
structure Config where
  ServerNames : List String := []
  ListenAddresses : List String := []
  Daemonize : Bool := false
  ForceTCP : Bool := false
  Timeout : Int := 0
  CertRefreshDelay : Int := 0
  BlockIPv6 : Bool := false
  Cache : Bool := false
  CacheSize : Int := 0
  CacheNegTTL : Nat := 0
  CacheMinTTL : Nat := 0
  CacheMaxTTL : Nat := 0
  ServersConfig : List (String × ServerConfig) := []
  SourcesConfig : List (String × SourceConfig) := []
deriving DecidableEq, Repr, Inhabited

/-- Function newConfig from config.go: the defaults provider. -/
def newConfig : Config :=
  { ServerNames := []
    ListenAddresses := ["127.0.0.1:53"]
    Daemonize := false
    ForceTCP := false
    Timeout := 2500
    CertRefreshDelay := 30
    BlockIPv6 := false
    Cache := true
    CacheSize := 256
    CacheNegTTL := 60
    CacheMinTTL := 60
    CacheMaxTTL := 8600
    ServersConfig := []
    SourcesConfig := [] }

/-- The mutable fields of `Proxy` that `ConfigLoad` assigns.
`timeout` and `certRefreshDelay` are in nanoseconds, as Go durations. -/
structure Proxy where
  timeout : Int := 0
  mainProto : String := ""
  certRefreshDelay : Int := 0
  listenAddresses : List String := []
  daemonize : Bool := false
  pluginBlockIPv6 : Bool := false
  cache : Bool := false
  cacheSize : Int := 0
  cacheNegTTL : Nat := 0
  cacheMinTTL : Nat := 0
  cacheMaxTTL : Nat := 0
  registeredServers : List RegisteredServer := []
deriving DecidableEq, Repr, Inhabited

/-- How `ConfigLoad` can end abnormally: `err` is an ordinary returned
`error`, `fatal` is a `dlog.Fatal` process abort. -/
inductive LoadErr where
  | err : String → LoadErr
  | fatal : String → LoadErr
deriving DecidableEq, Repr

/-- The external collaborators of config.go, as oracles:
`flagConfig` is the value of the `-config` command-line flag after
`flag.Parse()` (ambient process-global state, default
"dnscrypt-proxy.toml"); `decodeFile path init` is
`toml.DecodeFile(path, &config)` decoding over the current value `init`;
`newSource` is `NewSource(url, minisignKey, cacheFile, format, delayHours)`
where the outer `Except` is construction and the inner one is the
subsequent `source.Parse()`; `newServerStampFromLegacy` is
`NewServerStampFromLegacy(address, publicKey, providerName)`. -/
structure Env where
  flagConfig : String := "dnscrypt-proxy.toml"
  decodeFile : String → Config → Except String Config
  newSource : String → String → String → String → Int →
    Except String (Except String (List RegisteredServer))
  newServerStampFromLegacy : String → String → String → Except String ServerStamp

/-- Lower-casing of a string, character by character (ASCII folding). -/
def stringToLower (s : String) : String :=
  ⟨s.data.map Char.toLower⟩

/-- Go strings.EqualFold, modelled as ASCII case folding. -/
def stringEqualFold (a b : String) : Bool :=
  stringToLower a == stringToLower b

/-- Function includesName from config.go: linear scan with
case-insensitive comparison. -/
def includesName : List String → String → Bool
  | [], _ => false
  | found :: rest, name =>
    if stringEqualFold found name then true else includesName rest name

/-- The effective `config.ServerNames` after lines 85-89 of config.go:
when the operator listed none, every key of the servers table is
appended to the (empty) list. -/
def wantedNames (config : Config) : List String :=
  if config.ServerNames.isEmpty then
    config.ServerNames ++ config.ServersConfig.map Prod.fst
  else
    config.ServerNames

/-- The inner loop at lines 116-122 of config.go: walk the servers a
source produced, skip those whose name is not wanted, append the rest to
`proxy.registeredServers` (here `acc`) in order. -/
def addRegisteredServers (serverNames : List String) :
    List RegisteredServer → List RegisteredServer → List RegisteredServer
  | [], acc => acc
  | registeredServer :: rest, acc =>
    if !includesName serverNames registeredServer.name then
      addRegisteredServers serverNames rest acc
    else
      addRegisteredServers serverNames rest (acc ++ [registeredServer])

/-- The sources loop at lines 90-123 of config.go: validate each source
declaration (missing fields are fatal), default the refresh delay,
construct and parse the source (failures are logged and skipped), and
accumulate the wanted servers. -/
def processSources (env : Env) (serverNames : List String) :
    List (String × SourceConfig) → List RegisteredServer →
    Except LoadErr (List RegisteredServer)
  | [], acc => .ok acc
  | (sourceName, source) :: rest, acc =>
    if source.URL = "" then
      .error (.err ("Missing URL for source [" ++ sourceName ++ "]"))
    else if source.MinisignKeyStr = "" then
      .error (.err ("Missing Minisign key for source [" ++ sourceName ++ "]"))
    else if source.CacheFile = "" then
      .error (.err ("Missing cache file for source [" ++ sourceName ++ "]"))
    else if source.FormatStr = "" then
      .error (.err ("Missing format for source [" ++ sourceName ++ "]"))
    else
      let refreshDelay := if source.RefreshDelay ≤ 0 then 24 else source.RefreshDelay
      match env.newSource source.URL source.MinisignKeyStr source.CacheFile
          source.FormatStr refreshDelay with
      | .error _ => processSources env serverNames rest acc
      | .ok parseResult =>
        match parseResult with
        | .error _ => processSources env serverNames rest acc
        | .ok registeredServers =>
          processSources env serverNames rest
            (addRegisteredServers serverNames registeredServers acc)

/-- The explicit-servers loop at lines 124-141 of config.go: for each
wanted name, look its entry up in the servers table (exact key equality;
absent entries are skipped), abort fatally on a non-empty stamp string,
otherwise build the legacy stamp (failures abort the load) and append. -/
def processServers (env : Env) (serversConfig : List (String × ServerConfig)) :
    List String → List RegisteredServer → Except LoadErr (List RegisteredServer)
  | [], acc => .ok acc
  | serverName :: rest, acc =>
    match List.lookup serverName serversConfig with
    | none => processServers env serversConfig rest acc
    | some serverConfig =>
      if serverConfig.Stamp.length > 0 then
        .error (.fatal "Stamps are not implemented yet")
      else
        match env.newServerStampFromLegacy serverConfig.Address
            serverConfig.PublicKey serverConfig.ProviderName with
        | .error e => .error (.err e)
        | .ok stamp =>
          processServers env serversConfig rest
            (acc ++ [{ name := serverName, stamp := stamp }])

/-- Function ConfigLoad from config.go.  Note that the Go
function reads the `-config` command-line flag (`env.flagConfig`) and
never uses its `config_file` parameter. -/
def ConfigLoad (env : Env) (proxy : Proxy) (config_file : String) :
    Except LoadErr Proxy :=
  let _ := config_file
  let configFile := env.flagConfig
  match env.decodeFile configFile newConfig with
  | .error e => .error (.err e)
  | .ok config =>
    let proxy := { proxy with
      timeout := config.Timeout * 1000000
      mainProto := if config.ForceTCP then "tcp" else "udp"
      certRefreshDelay := config.CertRefreshDelay * 60000000000 }
    if config.ListenAddresses.length = 0 then
      .error (.err "No local IP/port configured")
    else
      let proxy := { proxy with
        listenAddresses := config.ListenAddresses
        daemonize := config.Daemonize
        pluginBlockIPv6 := config.BlockIPv6
        cache := config.Cache
        cacheSize := config.CacheSize
        cacheNegTTL := config.CacheNegTTL
        cacheMinTTL := config.CacheMinTTL
        cacheMaxTTL := config.CacheMaxTTL }
      let serverNames := wantedNames config
      match processSources env serverNames config.SourcesConfig
          proxy.registeredServers with
      | .error e => .error e
      | .ok regs =>
        match processServers env config.ServersConfig serverNames regs with
        | .error e => .error e
        | .ok regs2 =>
          let proxy := { proxy with registeredServers := regs2 }
          if proxy.registeredServers.length = 0 then
            .error (.err "No servers configured")
          else
            .ok proxy

/-- Boolean success test on a load result. -/
def loadIsOk : Except LoadErr Proxy → Bool
  | .ok _ => true
  | .error _ => false

/-! Concrete fixtures used to evaluate the development on closed inputs. -/

/-- A proxy in its zero state, as at the call site of `ConfigLoad`. -/
def proxy0 : Proxy := {}

/-- An explicit server declared via the legacy triple (no stamp string). -/
def legacyR1 : ServerConfig :=
  { Address := "1.2.3.4:443", PublicKey := "ABCD", ProviderName := "p.example" }

/-- A decoded configuration holding one explicit legacy server `r1`,
no sources, and no operator server list. -/
def configR1 : Config :=
  { newConfig with ServersConfig := [("r1", legacyR1)] }

/-- A decoded configuration with an explicitly empty listen-address
override. -/
def configNoListen : Config :=
  { newConfig with ListenAddresses := [] }

/-- A decoded configuration whose only explicit server uses a stamp
string. -/
def configStamped : Config :=
  { newConfig with ServersConfig := [("s1", { Stamp := "sdns:AQcAAA" })] }

/-- A decoded configuration declaring one source with a missing URL. -/
def configBadSource : Config :=
  { newConfig with SourcesConfig :=
      [("s", { URL := "", MinisignKeyStr := "k", CacheFile := "c",
               FormatStr := "v1", RefreshDelay := 24 })] }

/-- A stamp builder that always succeeds, recording its inputs. -/
def stampBuilderOk : String → String → String → Except String ServerStamp :=
  fun address publicKey providerName =>
    .ok { data := address ++ "|" ++ publicKey ++ "|" ++ providerName }

/-- The stamp `stampBuilderOk` derives for `legacyR1`. -/
def r1Stamp : ServerStamp := { data := "1.2.3.4:443|ABCD|p.example" }

/-- The registry entry `ConfigLoad` builds for `r1` from `configR1`. -/
def r1Reg : RegisteredServer := { name := "r1", stamp := r1Stamp }

/-- Environment whose flag names a file decoding to `configR1`; every
other path fails to decode, sources are offline, legacy stamps build. -/
def envC2 : Env :=
  { flagConfig := "flag.toml"
    decodeFile := fun path _ =>
      if path = "flag.toml" then .ok configR1 else .error "boom"
    newSource := fun _ _ _ _ _ => .error "offline"
    newServerStampFromLegacy := stampBuilderOk }

/-- Environment whose decoder always reports failure. -/
def envDecodeErr : Env :=
  { flagConfig := "flag.toml"
    decodeFile := fun _ _ => .error "boom"
    newSource := fun _ _ _ _ _ => .error "offline"
    newServerStampFromLegacy := stampBuilderOk }

/-- Environment decoding every path to `configR1`. -/
def envC1 : Env :=
  { flagConfig := "flag.toml"
    decodeFile := fun _ _ => .ok configR1
    newSource := fun _ _ _ _ _ => .error "offline"
    newServerStampFromLegacy := stampBuilderOk }

/-- Environment decoding every path to `configStamped`. -/
def envC3 : Env :=
  { flagConfig := "flag.toml"
    decodeFile := fun _ _ => .ok configStamped
    newSource := fun _ _ _ _ _ => .error "offline"
    newServerStampFromLegacy := stampBuilderOk }

/-- Environment decoding every path to `configR1`, whose legacy stamp
builder rejects every triple. -/
def envC5 : Env :=
  { flagConfig := "flag.toml"
    decodeFile := fun _ _ => .ok configR1
    newSource := fun _ _ _ _ _ => .error "offline"
    newServerStampFromLegacy := fun _ _ _ => .error "legacy invalid" }

/-- Environment whose source constructor rejects every source. -/
def envC6 : Env :=
  { flagConfig := "flag.toml"
    decodeFile := fun _ _ => .ok configR1
    newSource := fun _ _ _ _ _ => .error "unusable"
    newServerStampFromLegacy := stampBuilderOk }

/-- Environment decoding every path to `configBadSource`. -/
def envC7 : Env :=
  { flagConfig := "flag.toml"
    decodeFile := fun _ _ => .ok configBadSource
    newSource := fun _ _ _ _ _ => .error "offline"
    newServerStampFromLegacy := stampBuilderOk }

/-- Environment decoding every path to `configNoListen`. -/
def envC9 : Env :=
  { flagConfig := "flag.toml"
    decodeFile := fun _ _ => .ok configNoListen
    newSource := fun _ _ _ _ _ => .error "offline"
    newServerStampFromLegacy := stampBuilderOk }

/-- A well-formed source declaration (all required fields present). -/
def srcGood : SourceConfig :=
  { URL := "https://example.com/v3", MinisignKeyStr := "RWQk",
    CacheFile := "cache.md", FormatStr := "v2", RefreshDelay := 24 }

/-- The proxy produced by a successful load of `configR1` from `proxy0`. -/
def proxyR1 : Proxy :=
  { timeout := 2500 * 1000000
    mainProto := "udp"
    certRefreshDelay := 30 * 60000000000
    listenAddresses := ["127.0.0.1:53"]
    daemonize := false
    pluginBlockIPv6 := false
    cache := true
    cacheSize := 256
    cacheNegTTL := 60
    cacheMinTTL := 60
    cacheMaxTTL := 8600
    registeredServers := [r1Reg] }

/-! Helper lemmas shared by the claim theorems. -/

theorem string_length_pos (s : String) (h : s ≠ "") : 0 < s.length := by
  rcases s with ⟨l⟩
  cases l with
  | nil => exact absurd rfl h
  | cons c cs => simp [String.length]

theorem processServers_append (env : Env) (cfgs : List (String × ServerConfig)) :
    ∀ (pre l : List String) (acc : List RegisteredServer),
    processServers env cfgs (pre ++ l) acc =
      match processServers env cfgs pre acc with
      | .error e => .error e
      | .ok a => processServers env cfgs l a := by
  intro pre
  induction pre with
  | nil => intro l acc; rfl
  | cons hd tl ih =>
    intro l acc
    simp only [List.cons_append, processServers]
    cases hlk : List.lookup hd cfgs with
    | none => simp only [hlk]; exact ih l acc
    | some sc =>
      simp only [hlk]
      by_cases hst : sc.Stamp.length > 0
      · simp only [if_pos hst]
      · simp only [if_neg hst]
        cases hb : env.newServerStampFromLegacy sc.Address sc.PublicKey
            sc.ProviderName with
        | error e => simp only [hb]
        | ok st => simp only [hb]; exact ih l _

theorem ConfigLoad_unfold (env : Env) (proxy : Proxy) (path : String)
    (config : Config)
    (h1 : env.decodeFile env.flagConfig newConfig = .ok config)
    (h2 : config.ListenAddresses.length ≠ 0) :
    ConfigLoad env proxy path =
      match processSources env (wantedNames config) config.SourcesConfig
          proxy.registeredServers with
      | .error e => .error e
      | .ok regs =>
        match processServers env config.ServersConfig (wantedNames config)
            regs with
        | .error e => .error e
        | .ok regs2 =>
          if regs2.length = 0 then .error (.err "No servers configured")
          else .ok { proxy with
            timeout := config.Timeout * 1000000
            mainProto := if config.ForceTCP then "tcp" else "udp"
            certRefreshDelay := config.CertRefreshDelay * 60000000000
            listenAddresses := config.ListenAddresses
            daemonize := config.Daemonize
            pluginBlockIPv6 := config.BlockIPv6
            cache := config.Cache
            cacheSize := config.CacheSize
            cacheNegTTL := config.CacheNegTTL
            cacheMinTTL := config.CacheMinTTL
            cacheMaxTTL := config.CacheMaxTTL
            registeredServers := regs2 } := by
  simp only [ConfigLoad, h1, if_neg h2]

theorem processServers_stamp_not_ok (env : Env)
    (cfgs : List (String × ServerConfig)) (name : String) (sc : ServerConfig)
    (h1 : List.lookup name cfgs = some sc) (h2 : sc.Stamp ≠ "") :
    ∀ (names : List String) (acc r : List RegisteredServer),
    name ∈ names → processServers env cfgs names acc ≠ .ok r := by
  intro names
  induction names with
  | nil => intro acc r h; simp at h
  | cons hd tl ih =>
    intro acc r hmem hok
    rcases List.mem_cons.mp hmem with rfl | hmem2
    · simp only [processServers, h1] at hok
      rw [if_pos (string_length_pos sc.Stamp h2)] at hok
      exact Except.noConfusion hok
    · simp only [processServers] at hok
      cases hlk : List.lookup hd cfgs with
      | none =>
        simp only [hlk] at hok
        exact ih acc r hmem2 hok
      | some sc2 =>
        simp only [hlk] at hok
        by_cases hst : sc2.Stamp.length > 0
        · rw [if_pos hst] at hok
          exact Except.noConfusion hok
        · rw [if_neg hst] at hok
          cases hb : env.newServerStampFromLegacy sc2.Address sc2.PublicKey
              sc2.ProviderName with
          | error e => simp only [hb] at hok; exact Except.noConfusion hok
          | ok st => simp only [hb] at hok; exact ih _ r hmem2 hok

theorem addRegisteredServers_eq_filter (serverNames : List String) :
    ∀ (l acc : List RegisteredServer),
    addRegisteredServers serverNames l acc =
      acc ++ l.filter (fun rs => includesName serverNames rs.name) := by
  intro l
  induction l with
  | nil => intro acc; simp [addRegisteredServers]
  | cons hd tl ih =>
    intro acc
    by_cases h : includesName serverNames hd.name
    · simp [addRegisteredServers, h, ih, List.filter_cons]
    · simp [addRegisteredServers, h, ih, List.filter_cons]

theorem includesName_iff_exists (names : List String) (name : String) :
    includesName names name = true ↔
      ∃ w ∈ names, stringToLower w = stringToLower name := by
  induction names with
  | nil => simp [includesName]
  | cons hd tl ih =>
    by_cases h : stringEqualFold hd name
    · simp only [includesName, if_pos h]
      have : stringToLower hd = stringToLower name := by
        simpa [stringEqualFold] using h
      simp [this]
    · simp only [includesName, if_neg h, ih]
      have : ¬stringToLower hd = stringToLower name := by
        simpa [stringEqualFold] using h
      simp [this]

/-! Claim theorems. -/

/-- C1: after the source-resolution pass and the legacy-stamp-resolution
pass both complete, `ConfigLoad` fails with the no-servers error exactly
when the assembled registry is empty, and a successful load always hands
back a proxy whose registry has length at least one. -/
theorem claim1_registry_nonempty (env : Env) (proxy : Proxy) (path : String)
    (config : Config) (regs1 regs2 : List RegisteredServer) (p : Proxy)
    (h1 : env.decodeFile env.flagConfig newConfig = .ok config)
    (h2 : config.ListenAddresses.length ≠ 0)
    (h3 : processSources env (wantedNames config) config.SourcesConfig
      proxy.registeredServers = .ok regs1)
    (h4 : processServers env config.ServersConfig (wantedNames config) regs1
      = .ok regs2) :
    (ConfigLoad env proxy path = .error (.err "No servers configured") ↔
      regs2 = []) ∧
    (ConfigLoad env proxy path = .ok p → 1 ≤ p.registeredServers.length) := by
  rw [ConfigLoad_unfold env proxy path config h1 h2]
  simp only [h3, h4]
  by_cases hz : regs2.length = 0
  · rw [if_pos hz]
    refine ⟨⟨fun _ => List.length_eq_zero.mp hz, fun _ => rfl⟩, ?_⟩
    intro hok
    exact Except.noConfusion hok
  · rw [if_neg hz]
    constructor
    · constructor
      · intro h
        exact Except.noConfusion h
      · intro h
        subst h
        simp at hz
    · intro hok
      injection hok with hp
      subst hp
      exact Nat.pos_of_ne_zero hz

/-- C1 witness: a concrete single-server configuration where the load
succeeds and the registry holds exactly one entry. -/
theorem claim1_registry_nonempty_concrete :
    (ConfigLoad envC1 proxy0 "p" = .error (.err "No servers configured") ↔
      [r1Reg] = ([] : List RegisteredServer)) ∧
    (ConfigLoad envC1 proxy0 "p" = .ok proxyR1 →
      1 ≤ proxyR1.registeredServers.length) :=
  claim1_registry_nonempty envC1 proxy0 "p" configR1 [] [r1Reg] proxyR1
    rfl (by decide) rfl rfl

/-- C2 counterexample: the path argument of `ConfigLoad` is ignored.
The file named by the argument fails to decode, yet the load succeeds
(it reads the file named by the command-line flag), and passing a
different path argument changes nothing. -/
theorem claim2_path_ignored_cex :
    envC2.decodeFile "arg.toml" newConfig = .error "boom" ∧
    ConfigLoad envC2 proxy0 "arg.toml" = ConfigLoad envC2 proxy0 "missing.toml" ∧
    loadIsOk (ConfigLoad envC2 proxy0 "arg.toml") = true :=
  ⟨rfl, rfl, rfl⟩

/-- C2 (amended): `ConfigLoad` never consults its path parameter; its
result is the same for any two paths, and the file actually decoded is
the one named by the ambient `-config` flag, whose decode failure is the
returned error. -/
theorem claim2_flag_determines_decode (env : Env) (proxy : Proxy)
    (p q e : String) :
    ConfigLoad env proxy p = ConfigLoad env proxy q ∧
    (env.decodeFile env.flagConfig newConfig = .error e →
      ConfigLoad env proxy p = .error (.err e)) := by
  constructor
  · rfl
  · intro h
    simp only [ConfigLoad, h]

/-- C2 witness: with a decoder that rejects every file, the load fails
with that decode error, for any path argument. -/
theorem claim2_flag_determines_decode_concrete :
    ConfigLoad envDecodeErr proxy0 "a" = ConfigLoad envDecodeErr proxy0 "b" ∧
    ConfigLoad envDecodeErr proxy0 "a" = .error (.err "boom") :=
  ⟨(claim2_flag_determines_decode envDecodeErr proxy0 "a" "b" "boom").1,
   (claim2_flag_determines_decode envDecodeErr proxy0 "a" "b" "boom").2 rfl⟩

/-- C9: a decoded configuration with an empty listen-address list makes
the load fail with the missing-listen-address error, and this happens
before any source or server resolution: the outcome is unchanged under
arbitrary replacement of the source and stamp collaborators. -/
theorem claim9_empty_listen_fails (env : Env) (proxy : Proxy) (path : String)
    (config : Config)
    (ns : String → String → String → String → Int →
      Except String (Except String (List RegisteredServer)))
    (nst : String → String → String → Except String ServerStamp)
    (h1 : env.decodeFile env.flagConfig newConfig = .ok config)
    (h2 : config.ListenAddresses = []) :
    ConfigLoad env proxy path = .error (.err "No local IP/port configured") ∧
    ConfigLoad { env with newSource := ns, newServerStampFromLegacy := nst }
      proxy path = .error (.err "No local IP/port configured") := by
  constructor
  · simp [ConfigLoad, h1, h2]
  · simp [ConfigLoad, h1, h2]

/-- C9 witness: a concrete configuration with an explicitly empty
listen-address override is rejected with the missing-listen-address
error. -/
theorem claim9_empty_listen_fails_concrete :
    ConfigLoad envC9 proxy0 "p" = .error (.err "No local IP/port configured") ∧
    ConfigLoad { envC9 with
      newSource := (fun _ _ _ _ _ => .error "x"),
      newServerStampFromLegacy := (fun _ _ _ => .error "x") } proxy0 "p"
      = .error (.err "No local IP/port configured") :=
  claim9_empty_listen_fails envC9 proxy0 "p" configNoListen
    (fun _ _ _ _ _ => .error "x") (fun _ _ _ => .error "x") rfl rfl

/-- C3: whenever some wanted name has an explicit server entry with a
non-empty stamp string, the load can never succeed, whatever the other
fields of that entry and the rest of the configuration hold. -/
theorem claim3_stamp_string_fatal (env : Env) (proxy : Proxy) (path : String)
    (config : Config) (name : String) (sc : ServerConfig)
    (h1 : env.decodeFile env.flagConfig newConfig = .ok config)
    (h2 : name ∈ wantedNames config)
    (h3 : List.lookup name config.ServersConfig = some sc)
    (h4 : sc.Stamp ≠ "") :
    loadIsOk (ConfigLoad env proxy path) = false := by
  by_cases hl : config.ListenAddresses.length = 0
  · simp [ConfigLoad, h1, hl, loadIsOk]
  · rw [ConfigLoad_unfold env proxy path config h1 hl]
    cases hs : processSources env (wantedNames config) config.SourcesConfig
        proxy.registeredServers with
    | error e => simp [loadIsOk]
    | ok regs =>
      cases hp : processServers env config.ServersConfig (wantedNames config)
          regs with
      | error e => simp [hs, hp, loadIsOk]
      | ok regs2 =>
        exact absurd hp (processServers_stamp_not_ok env config.ServersConfig
          name sc h3 h4 (wantedNames config) regs regs2 h2)

/-- C3 witness: a configuration whose single wanted server carries a
stamp string is rejected. -/
theorem claim3_stamp_string_fatal_concrete :
    loadIsOk (ConfigLoad envC3 proxy0 "p") = false :=
  claim3_stamp_string_fatal envC3 proxy0 "p" configStamped "s1"
    { Stamp := "sdns:AQcAAA" } rfl (by decide) rfl (by decide)

/-- C4: the per-source registration loop appends to the registry exactly
the candidates whose name matches a wanted name case-insensitively, in
the order the source produced them, and the membership test succeeds
exactly when some wanted name agrees with the candidate name up to
letter case. -/
theorem claim4_source_filter (serverNames : List String)
    (produced acc : List RegisteredServer) (n : String) :
    addRegisteredServers serverNames produced acc =
      acc ++ produced.filter (fun rs => includesName serverNames rs.name) ∧
    (includesName serverNames n = true ↔
      ∃ w ∈ serverNames, stringToLower w = stringToLower n) :=
  ⟨addRegisteredServers_eq_filter serverNames produced acc,
   includesName_iff_exists serverNames n⟩

/-- C5: once the legacy-stamp pass reaches a wanted name whose entry has
no stamp string, a stamp-builder failure aborts the pass with that error
no matter what names remain, and the whole load returns it. -/
theorem claim5_legacy_error_aborts (env : Env)
    (cfgs : List (String × ServerConfig)) (pre post : List String)
    (name : String) (sc : ServerConfig) (e : String)
    (acc acc1 : List RegisteredServer)
    (proxy : Proxy) (path : String) (config : Config)
    (h0 : processServers env cfgs pre acc = .ok acc1)
    (h1 : List.lookup name cfgs = some sc)
    (h2 : sc.Stamp = "")
    (h3 : env.newServerStampFromLegacy sc.Address sc.PublicKey sc.ProviderName
      = .error e)
    (hd : env.decodeFile env.flagConfig newConfig = .ok config)
    (hl : config.ListenAddresses.length ≠ 0)
    (hcfg : config.ServersConfig = cfgs)
    (hw : wantedNames config = pre ++ name :: post)
    (hs : processSources env (wantedNames config) config.SourcesConfig
      proxy.registeredServers = .ok acc) :
    processServers env cfgs (pre ++ name :: post) acc = .error (.err e) ∧
    ConfigLoad env proxy path = .error (.err e) := by
  have hsl : ¬sc.Stamp.length > 0 := by rw [h2]; decide
  have hmain : processServers env cfgs (pre ++ name :: post) acc
      = .error (.err e) := by
    rw [processServers_append env cfgs pre (name :: post) acc, h0]
    simp only [processServers, h1, if_neg hsl, h3]
  refine ⟨hmain, ?_⟩
  rw [ConfigLoad_unfold env proxy path config hd hl]
  simp only [hs]
  rw [hcfg, hw]
  simp only [hmain]

/-- C5 witness: a single explicit legacy server whose stamp builder
rejects the triple makes the whole load fail with that error. -/
theorem claim5_legacy_error_aborts_concrete :
    processServers envC5 [("r1", legacyR1)] ([] ++ "r1" :: []) []
      = .error (.err "legacy invalid") ∧
    ConfigLoad envC5 proxy0 "p" = .error (.err "legacy invalid") :=
  claim5_legacy_error_aborts envC5 [("r1", legacyR1)] [] [] "r1" legacyR1
    "legacy invalid" [] [] proxy0 "p" configR1 rfl rfl rfl rfl rfl
    (by decide) rfl rfl rfl

/-- C6: when a declared source passes field validation but its
construction or its parse fails, the source is skipped entirely: the
sources pass behaves as if the source were absent, so the load is never
aborted and the source contributes no candidates. -/
theorem claim6_source_failure_skipped (env : Env) (names : List String)
    (sourceName : String) (source : SourceConfig)
    (rest : List (String × SourceConfig)) (acc : List RegisteredServer)
    (hu : source.URL ≠ "") (hk : source.MinisignKeyStr ≠ "")
    (hc : source.CacheFile ≠ "") (hf : source.FormatStr ≠ "")
    (hfail :
      (∃ e, env.newSource source.URL source.MinisignKeyStr source.CacheFile
        source.FormatStr (if source.RefreshDelay ≤ 0 then 24
          else source.RefreshDelay) = .error e) ∨
      (∃ e, env.newSource source.URL source.MinisignKeyStr source.CacheFile
        source.FormatStr (if source.RefreshDelay ≤ 0 then 24
          else source.RefreshDelay) = .ok (.error e))) :
    processSources env names ((sourceName, source) :: rest) acc
      = processSources env names rest acc := by
  simp only [processSources, if_neg hu, if_neg hk, if_neg hc, if_neg hf]
  rcases hfail with ⟨e, he⟩ | ⟨e, he⟩
  · simp only [he]
  · simp only [he]

/-- C6 witness: a well-formed source whose constructor fails is skipped
and the pass continues as if it were not declared. -/
theorem claim6_source_failure_skipped_concrete :
    processSources envC6 ["r1"] [("s", srcGood)] []
      = processSources envC6 ["r1"] [] [] :=
  claim6_source_failure_skipped envC6 ["r1"] "s" srcGood [] []
    (by decide) (by decide) (by decide) (by decide)
    (Or.inl ⟨"unusable", rfl⟩)

/-- C7: a declared source is validated in the order URL, Minisign key,
cache file, format; the first empty field fails the sources pass with an
error naming that field and the source, and that error aborts the whole
load; a non-positive refresh delay is not an error but is replaced by 24
hours before the source is constructed. -/
theorem claim7_source_field_validation (env : Env) (names : List String)
    (sourceName : String) (source : SourceConfig)
    (rest : List (String × SourceConfig)) (acc : List RegisteredServer)
    (proxy : Proxy) (path : String) (config : Config) (e : LoadErr) :
    (source.URL = "" →
      processSources env names ((sourceName, source) :: rest) acc
        = .error (.err ("Missing URL for source [" ++ sourceName ++ "]"))) ∧
    (source.URL ≠ "" → source.MinisignKeyStr = "" →
      processSources env names ((sourceName, source) :: rest) acc
        = .error (.err ("Missing Minisign key for source ["
            ++ sourceName ++ "]"))) ∧
    (source.URL ≠ "" → source.MinisignKeyStr ≠ "" → source.CacheFile = "" →
      processSources env names ((sourceName, source) :: rest) acc
        = .error (.err ("Missing cache file for source ["
            ++ sourceName ++ "]"))) ∧
    (source.URL ≠ "" → source.MinisignKeyStr ≠ "" → source.CacheFile ≠ "" →
      source.FormatStr = "" →
      processSources env names ((sourceName, source) :: rest) acc
        = .error (.err ("Missing format for source ["
            ++ sourceName ++ "]"))) ∧
    (source.RefreshDelay ≤ 0 →
      processSources env names ((sourceName, source) :: rest) acc
        = processSources env names
            ((sourceName, { source with RefreshDelay := 24 }) :: rest) acc) ∧
    (env.decodeFile env.flagConfig newConfig = .ok config →
      config.ListenAddresses.length ≠ 0 →
      processSources env (wantedNames config) config.SourcesConfig
        proxy.registeredServers = .error e →
      ConfigLoad env proxy path = .error e) := by
  refine ⟨?_, ?_, ?_, ?_, ?_, ?_⟩
  · intro h
    simp only [processSources, if_pos h]
  · intro h1 h2
    simp only [processSources, if_neg h1, if_pos h2]
  · intro h1 h2 h3
    simp only [processSources, if_neg h1, if_neg h2, if_pos h3]
  · intro h1 h2 h3 h4
    simp only [processSources, if_neg h1, if_neg h2, if_neg h3, if_pos h4]
  · intro h
    have h24 : (if source.RefreshDelay ≤ 0 then (24 : Int)
        else source.RefreshDelay) = 24 := if_pos h
    simp only [processSources, h24]
    norm_num
  · intro hd hl hs
    rw [ConfigLoad_unfold env proxy path config hd hl]
    simp only [hs]

/-- C7 witness: concrete sources missing each field in turn produce the
corresponding named error, a zero refresh delay is normalized to 24, and
a failing sources pass fails the whole load. -/
theorem claim7_source_field_validation_concrete :
    processSources envC7 [] [("s", { URL := "" : SourceConfig })] []
      = .error (.err "Missing URL for source [s]") ∧
    processSources envC7 [] [("s", { URL := "u" : SourceConfig })] []
      = .error (.err "Missing Minisign key for source [s]") ∧
    processSources envC7 []
        [("s", { URL := "u", MinisignKeyStr := "k" : SourceConfig })] []
      = .error (.err "Missing cache file for source [s]") ∧
    processSources envC7 []
        [("s", { URL := "u", MinisignKeyStr := "k",
                 CacheFile := "c" : SourceConfig })] []
      = .error (.err "Missing format for source [s]") ∧
    processSources envC7 [] [("s", { srcGood with RefreshDelay := 0 })] []
      = processSources envC7 []
          [("s", { srcGood with RefreshDelay := 24 })] [] ∧
    ConfigLoad envC7 proxy0 "p"
      = .error (.err "Missing URL for source [s]") := by
  refine ⟨?_, ?_, ?_, ?_, ?_, ?_⟩
  · exact (claim7_source_field_validation envC7 [] "s"
      { URL := "" } [] [] proxy0 "p" configBadSource (.err "x")).1 rfl
  · exact (claim7_source_field_validation envC7 [] "s"
      { URL := "u" } [] [] proxy0 "p" configBadSource
        (.err "x")).2.1 (by decide) rfl
  · exact (claim7_source_field_validation envC7 [] "s"
      { URL := "u", MinisignKeyStr := "k" } [] [] proxy0 "p" configBadSource
        (.err "x")).2.2.1 (by decide) (by decide) rfl
  · exact (claim7_source_field_validation envC7 [] "s"
      { URL := "u", MinisignKeyStr := "k", CacheFile := "c" } [] [] proxy0
        "p" configBadSource (.err "x")).2.2.2.1
      (by decide) (by decide) (by decide) rfl
  · exact (claim7_source_field_validation envC7 [] "s"
      { srcGood with RefreshDelay := 0 } [] [] proxy0 "p" configBadSource
        (.err "x")).2.2.2.2.1 (by decide)
  · exact (claim7_source_field_validation envC7 [] "s"
      { URL := "" } [] [] proxy0 "p" configBadSource
        (.err "Missing URL for source [s]")).2.2.2.2.2 rfl (by decide) rfl

/-- C8: when the operator lists no server names, the wanted names are
exactly the keys of the explicit-servers table: every key appears and a
name is wanted exactly when some entry carries it. -/
theorem claim8_wanted_names_default (config : Config) (n : String)
    (h : config.ServerNames = []) :
    wantedNames config = config.ServersConfig.map Prod.fst ∧
    (n ∈ wantedNames config ↔ ∃ sc, (n, sc) ∈ config.ServersConfig) := by
  have hw : wantedNames config = config.ServersConfig.map Prod.fst := by
    simp [wantedNames, h]
  refine ⟨hw, ?_⟩
  rw [hw]
  constructor
  · intro hm
    rcases List.mem_map.mp hm with ⟨p, hp, hfst⟩
    rcases p with ⟨a, sc⟩
    cases hfst
    exact ⟨sc, hp⟩
  · rintro ⟨sc, hsc⟩
    exact List.mem_map.mpr ⟨(n, sc), hsc, rfl⟩

/-- C8 witness: with no operator list and one table key, the wanted
names are that key. -/
theorem claim8_wanted_names_default_concrete :
    wantedNames configR1 = configR1.ServersConfig.map Prod.fst ∧
    ("r1" ∈ wantedNames configR1 ↔
      ∃ sc, ("r1", sc) ∈ configR1.ServersConfig) :=
  claim8_wanted_names_default configR1 "r1" rfl

/-- C10: the explicit-servers pass looks wanted names up with exact
(case-sensitive) key equality and silently skips a name with no exact
entry, while the source pass matches case-insensitively: the name x has
no entry in a table keyed X, yet x is a case-insensitive match for the
wanted name X. -/
theorem claim10_exact_lookup_skip (env : Env)
    (cfgs : List (String × ServerConfig)) (name : String)
    (rest : List String) (acc : List RegisteredServer)
    (h : List.lookup name cfgs = none) :
    processServers env cfgs (name :: rest) acc
      = processServers env cfgs rest acc ∧
    List.lookup "x" [("X", legacyR1)] = none ∧
    includesName ["X"] "x" = true := by
  refine ⟨?_, by decide, by decide⟩
  simp only [processServers, h]

/-- C10 witness: a wanted name differing only in case from the table key
is skipped by the explicit-servers pass. -/
theorem claim10_exact_lookup_skip_concrete :
    processServers envC1 [("X", legacyR1)] ("x" :: []) []
      = processServers envC1 [("X", legacyR1)] [] [] ∧
    List.lookup "x" [("X", legacyR1)] = none ∧
    includesName ["X"] "x" = true :=
  claim10_exact_lookup_skip envC1 [("X", legacyR1)] "x" [] [] (by decide)

end DnscryptConfig
